import Mathlib

/-!
Verification of the TFTP packet codec (`src/packet.rs`, `src/error.rs`).

Bytes are modelled as `List Nat`, each element one octet; wellformedness
predicates require elements `< 256` where the claims need faithfulness.
Rust `String` fields are modelled as byte lists (their UTF-8 bytes); all
texts appearing in the code and claims are ASCII, so one `Char` of the
Rust string corresponds to one byte.

The parsing half of the crate (`parse.rs`, `parse_packet`) is not part of
the provided sources; it is modelled from the specification (see
`parse_packet` below).  Everything else is translated directly from
`src/packet.rs` and `src/error.rs`.
-/

deriving instance DecidableEq for Except

/-- One octet, kept as `Nat` for arithmetic convenience. -/
abbrev Bytes := List Nat

/-- ASCII bytes of a string literal (all texts used here are ASCII). -/
def strBytes (s : String) : Bytes :=
  s.data.map Char.toNat

/-- Big-endian encoding of a 16-bit value, as written by `BufMut::put_u16`. -/
def put_u16 (n : Nat) : Bytes :=
  [n / 256 % 256, n % 256]

/-- `PacketType` from `src/packet.rs` (opcodes 1..6). -/
inductive PacketType
  | Rrq
  | Wrq
  | Data
  | Ack
  | Error
  | OAck
deriving DecidableEq

/-- The `u16` discriminant of each `PacketType` (`#[repr(u16)]`). -/
def PacketType.toU16 : PacketType → Nat
  | .Rrq => 1
  | .Wrq => 2
  | .Data => 3
  | .Ack => 4
  | .Error => 5
  | .OAck => 6

/-- `PacketType::from_u16`: the inverse partial map on opcodes. -/
def PacketType.from_u16 (n : Nat) : Option PacketType :=
  if n = 1 then some .Rrq
  else if n = 2 then some .Wrq
  else if n = 3 then some .Data
  else if n = 4 then some .Ack
  else if n = 5 then some .Error
  else if n = 6 then some .OAck
  else none

/-- The TFTP protocol error enumeration, `Error` in `src/packet.rs`
(renamed to avoid the clash with the crate error of `src/error.rs`).
`Msg` carries the UTF-8 bytes of the Rust `String`. -/
inductive TftpError
  | Msg (s : Bytes)
  | UnknownError
  | FileNotFound
  | PermissionDenied
  | DiskFull
  | IllegalOperation
  | UnknownTransferId
  | FileAlreadyExists
  | NoSuchUser
  | OptionsNegotiationFailed
deriving DecidableEq

/-- `Mode` from `src/packet.rs`. -/
inductive Mode
  | Netascii
  | Octet
  | Mail
deriving DecidableEq

/-- `Opts` from `src/packet.rs`: `block_size : Option<u16>`,
`timeout : Option<u8>`, `transfer_size : Option<u64>`,
`window_size : Option<u64>`.  Values are `Nat`s; the wellformedness
predicate `Opts.wfb` carries the Rust integer ranges. -/
structure Opts where
  block_size : Option Nat
  timeout : Option Nat
  transfer_size : Option Nat
  window_size : Option Nat
deriving DecidableEq

/-- `Opts::default()`: every option absent. -/
def Opts.default : Opts := ⟨none, none, none, none⟩

/-- `RwReq` from `src/packet.rs`. -/
structure RwReq where
  filename : Bytes
  mode : Mode
  opts : Opts
deriving DecidableEq

/-- `Packet` from `src/packet.rs`.  The `Data` payload is a borrowed
slice in Rust; here it is its byte list. -/
inductive Packet
  | Rrq (req : RwReq)
  | Wrq (req : RwReq)
  | Data (block : Nat) (data : Bytes)
  | Ack (block : Nat)
  | Error (error : TftpError)
  | OAck (opts : Opts)
deriving DecidableEq

/-- The crate-level error enumeration of `src/error.rs`.  The payload of
`Io` (`std::io::Error`) plays no role in any claim and is omitted. -/
inductive CrateError
  | InvalidMode
  | InvalidPacket
  | Io
deriving DecidableEq

/-- `Mode::to_str` (canonical lowercase wire text), as bytes. -/
def Mode.to_str : Mode → Bytes
  | .Netascii => strBytes "netascii"
  | .Octet => strBytes "octet"
  | .Mail => strBytes "mail"

/-- `Error::code` from `src/packet.rs`. -/
def TftpError.code : TftpError → Nat
  | .Msg _ => 0
  | .UnknownError => 0
  | .FileNotFound => 1
  | .PermissionDenied => 2
  | .DiskFull => 3
  | .IllegalOperation => 4
  | .UnknownTransferId => 5
  | .FileAlreadyExists => 6
  | .NoSuchUser => 7
  | .OptionsNegotiationFailed => 8

/-- `Error::msg` from `src/packet.rs`, as bytes. -/
def TftpError.msg : TftpError → Bytes
  | .Msg s => s
  | .UnknownError => strBytes "Unknown error"
  | .FileNotFound => strBytes "File not found"
  | .PermissionDenied => strBytes "Permission denied"
  | .DiskFull => strBytes "Disk is full"
  | .IllegalOperation => strBytes "Illegal operation"
  | .UnknownTransferId => strBytes "Unknown transfer ID"
  | .FileAlreadyExists => strBytes "File already exists"
  | .NoSuchUser => strBytes "No such user"
  | .OptionsNegotiationFailed => strBytes "Options negotiation failed"

/-- `Error::from_code` from `src/packet.rs`: the `match` on the code,
with the `0 | _` wildcard arm inspecting the optional message. -/
def TftpError.from_code (code : Nat) (msg : Option Bytes) : TftpError :=
  if code = 1 then .FileNotFound
  else if code = 2 then .PermissionDenied
  else if code = 3 then .DiskFull
  else if code = 4 then .IllegalOperation
  else if code = 5 then .UnknownTransferId
  else if code = 6 then .FileAlreadyExists
  else if code = 7 then .NoSuchUser
  else if code = 8 then .OptionsNegotiationFailed
  else
    match msg with
    | some m => .Msg m
    | none => .UnknownError

/-- Decimal digits of `n` (ASCII bytes, most significant first), with
structural fuel so that the kernel can evaluate it.  `natToDecBytes`
below instantiates the fuel sufficiently. -/
def natToDecAux : Nat → Nat → Bytes
  | 0, _ => []
  | fuel + 1, n =>
    if n < 10 then [48 + n]
    else natToDecAux fuel (n / 10) ++ [48 + n % 10]

/-- Decimal rendering of a natural number, as produced by Rust
`to_string` on an unsigned integer. -/
def natToDecBytes (n : Nat) : Bytes :=
  natToDecAux (n + 1) n

/-- Decimal rendering of an `i32`, as produced by Rust formatting of
`raw_os_error` codes. -/
def intToDecBytes (i : Int) : Bytes :=
  if i < 0 then 45 :: natToDecBytes i.natAbs else natToDecBytes i.natAbs

/-- `Opts::encode` from `src/packet.rs`: present options written in the
fixed order block size, timeout, window size, transfer size, each as
`key NUL decimal-value NUL`. -/
def Opts.encode (o : Opts) : Bytes :=
  (match o.block_size with
    | some v => strBytes "blksize" ++ [0] ++ natToDecBytes v ++ [0]
    | none => []) ++
  (match o.timeout with
    | some v => strBytes "timeout" ++ [0] ++ natToDecBytes v ++ [0]
    | none => []) ++
  (match o.window_size with
    | some v => strBytes "windowsize" ++ [0] ++ natToDecBytes v ++ [0]
    | none => []) ++
  (match o.transfer_size with
    | some v => strBytes "tsize" ++ [0] ++ natToDecBytes v ++ [0]
    | none => [])

/-- `Packet::encode` from `src/packet.rs`: appends the serialization of
the packet to the buffer `buf` (the Rust method mutates a `BytesMut`). -/
def Packet.encode (p : Packet) (buf : Bytes) : Bytes :=
  match p with
  | .Rrq req =>
      buf ++ put_u16 PacketType.Rrq.toU16 ++ req.filename ++ [0] ++
        req.mode.to_str ++ [0] ++ req.opts.encode
  | .Wrq req =>
      buf ++ put_u16 PacketType.Wrq.toU16 ++ req.filename ++ [0] ++
        req.mode.to_str ++ [0] ++ req.opts.encode
  | .Data block data =>
      buf ++ put_u16 PacketType.Data.toU16 ++ put_u16 block ++ data
  | .Ack block =>
      buf ++ put_u16 PacketType.Ack.toU16 ++ put_u16 block
  | .Error error =>
      buf ++ put_u16 PacketType.Error.toU16 ++ put_u16 error.code ++
        error.msg ++ [0]
  | .OAck opts =>
      buf ++ put_u16 PacketType.OAck.toU16 ++ opts.encode

/-- `Packet::encode_data_head`: writes only the Data opcode and block
number into the buffer. -/
def Packet.encode_data_head (block_id : Nat) (buf : Bytes) : Bytes :=
  buf ++ put_u16 PacketType.Data.toU16 ++ put_u16 block_id

/-- `Packet::to_bytes`: encode into a fresh empty buffer. -/
def Packet.to_bytes (p : Packet) : Bytes :=
  p.encode []

/-- Split a byte list at its first null byte: returns the bytes before
the first `0` and the bytes after it, or `none` when no null byte
occurs.  This is the null-terminated-string primitive of the decoder. -/
def splitAtNul : Bytes → Option (Bytes × Bytes)
  | [] => none
  | b :: rest =>
    if b = 0 then some ([], rest)
    else
      match splitAtNul rest with
      | some (s, r) => some (b :: s, r)
      | none => none

/-- One ASCII decimal digit, or `none`. -/
def decDigit (b : Nat) : Option Nat :=
  if 48 ≤ b ∧ b ≤ 57 then some (b - 48) else none

/-- Left fold of decimal digits onto an accumulator; `none` on the
first non-digit byte. -/
def decAux : Bytes → Nat → Option Nat
  | [], acc => some acc
  | b :: rest, acc =>
    match decDigit b with
    | some d => decAux rest (acc * 10 + d)
    | none => none

/-- Parse a byte list as an unsigned decimal number; fails on an empty
list or any non-digit byte (as Rust `str::parse` on an unsigned integer
type does, overflow aside — the range check lives in `parseBounded`). -/
def decBytesToNat : Bytes → Option Nat
  | [] => none
  | b :: rest => decAux (b :: rest) 0

/-- Parse a decimal value constrained to `< bound`, modelling Rust
`str::parse::<uN>` which fails on overflow; failure means `none`. -/
def parseBounded (v : Bytes) (bound : Nat) : Option Nat :=
  match decBytesToNat v with
  | some n => if n < bound then some n else none
  | none => none

/-- ASCII lowercasing of one byte, the byte-level content of Rust
`str::to_lowercase` on ASCII option/mode text. -/
def lowerByte (b : Nat) : Nat :=
  if 65 ≤ b ∧ b ≤ 90 then b + 32 else b

/-- Modelled from the spec: the per-option update of the options record
performed by the decoder (the crate's `parse.rs` is not among the
provided sources).  Known keys `blksize`, `timeout`, `windowsize`,
`tsize` set their field; a numeric value that fails to parse as the
expected integer type (or is empty) leaves the option absent; unknown
keys are ignored. -/
def applyOpt (k v : Bytes) (o : Opts) : Opts :=
  if k = strBytes "blksize" then
    ⟨parseBounded v (2 ^ 16), o.timeout, o.transfer_size, o.window_size⟩
  else if k = strBytes "timeout" then
    ⟨o.block_size, parseBounded v (2 ^ 8), o.transfer_size, o.window_size⟩
  else if k = strBytes "tsize" then
    ⟨o.block_size, o.timeout, parseBounded v (2 ^ 64), o.window_size⟩
  else if k = strBytes "windowsize" then
    ⟨o.block_size, o.timeout, o.transfer_size, parseBounded v (2 ^ 64)⟩
  else o

/-- Modelled from the spec: the option-block loop of the decoder, with
structural fuel (each iteration consumes at least two bytes, so
`input.length` fuel always suffices; `parse_opts` instantiates it so).
The block is a sequence of `key NUL value NUL` pairs in any order; a
key or value missing its terminator is a truncated block (`none`). -/
def parse_opts_aux : Nat → Bytes → Opts → Option Opts
  | _, [], acc => some acc
  | 0, _ :: _, _ => none
  | fuel + 1, b :: rest, acc =>
    match splitAtNul (b :: rest) with
    | none => none
    | some (k, r1) =>
      match splitAtNul r1 with
      | none => none
      | some (v, r2) => parse_opts_aux fuel r2 (applyOpt k v acc)

/-- Modelled from the spec: parse an option block starting from the
accumulated record `acc`. -/
def parse_opts (input : Bytes) (acc : Opts) : Option Opts :=
  parse_opts_aux input.length input acc

/-- Modelled from the spec: case-insensitive recognition of the mode
text of a request (`netascii`, `octet`, `mail`). -/
def parseMode (m : Bytes) : Option Mode :=
  if m.map lowerByte = strBytes "netascii" then some .Netascii
  else if m.map lowerByte = strBytes "octet" then some .Octet
  else if m.map lowerByte = strBytes "mail" then some .Mail
  else none

/-- Modelled from the spec: the body of a read/write request after the
opcode — `filename NUL mode NUL options`.  A field missing its
terminator or a truncated option block is `InvalidPacket`; an
unrecognised mode is `InvalidMode`. -/
def parseRwReq (rest : Bytes) : Except CrateError RwReq :=
  match splitAtNul rest with
  | none => .error .InvalidPacket
  | some (fname, r1) =>
    match splitAtNul r1 with
    | none => .error .InvalidPacket
    | some (m, r2) =>
      match parseMode m with
      | none => .error .InvalidMode
      | some mode =>
        match parse_opts r2 Opts.default with
        | none => .error .InvalidPacket
        | some opts => .ok ⟨fname, mode, opts⟩

/-- Modelled from the spec: `parse_packet` of the crate's `parse.rs`
(not among the provided sources).  A buffer shorter than two bytes or
an opcode outside 1..6 is `InvalidPacket`; each recognised opcode
dispatches to its body layout (§6 of the spec): requests carry
`filename NUL mode NUL options`; Data carries a 16-bit block number and
the remaining bytes as payload; Ack carries a 16-bit block number;
Error carries a 16-bit code and a null-terminated message, decoded via
`Error::from_code` with the message passed only when non-empty (code 0
with no text yields `UnknownError`); OAck carries an option block. -/
def parse_packet (data : Bytes) : Except CrateError Packet :=
  match data with
  | b0 :: b1 :: rest =>
    match PacketType.from_u16 (b0 * 256 + b1) with
    | none => .error .InvalidPacket
    | some ty =>
      match ty with
      | .Rrq => (parseRwReq rest).map .Rrq
      | .Wrq => (parseRwReq rest).map .Wrq
      | .Data =>
        match rest with
        | hi :: lo :: payload => .ok (.Data (hi * 256 + lo) payload)
        | _ => .error .InvalidPacket
      | .Ack =>
        match rest with
        | hi :: lo :: _ => .ok (.Ack (hi * 256 + lo))
        | _ => .error .InvalidPacket
      | .Error =>
        match rest with
        | hi :: lo :: r =>
          match splitAtNul r with
          | none => .error .InvalidPacket
          | some (m, _) =>
            .ok (.Error (TftpError.from_code (hi * 256 + lo)
              (if m = [] then none else some m)))
        | _ => .error .InvalidPacket
      | .OAck =>
        match parse_opts rest Opts.default with
        | none => .error .InvalidPacket
        | some opts => .ok (.OAck opts)
  | _ => .error .InvalidPacket

/-- `Packet::decode` from `src/packet.rs`: delegates to `parse_packet`. -/
def Packet.decode (data : Bytes) : Except CrateError Packet :=
  parse_packet data

/-- The `std::io::ErrorKind` values distinguished by the conversion in
`src/packet.rs`; every other kind is handled uniformly by the wildcard
arm and is collapsed into `Other` (a faithful quotient of the match). -/
inductive IoErrorKind
  | NotFound
  | PermissionDenied
  | WriteZero
  | AlreadyExists
  | Other
deriving DecidableEq

/-- The observable content of a `std::io::Error` used by the
conversion: its kind and its optional raw OS status code. -/
structure IoError where
  kind : IoErrorKind
  raw_os_error : Option Int
deriving DecidableEq

/-- `impl From<io::Error> for Error` from `src/packet.rs`. -/
def tftpErrorFromIo (e : IoError) : TftpError :=
  match e.kind with
  | .NotFound => .FileNotFound
  | .PermissionDenied => .PermissionDenied
  | .WriteZero => .DiskFull
  | .AlreadyExists => .FileAlreadyExists
  | .Other =>
    match e.raw_os_error with
    | some rc => .Msg (strBytes "IO error: " ++ intToDecBytes rc)
    | none => .UnknownError

/-- Wellformedness of text bytes: real octets, no embedded null byte. -/
def wfText (s : Bytes) : Bool :=
  s.all fun b => b ≠ 0 && b < 256

/-- Wellformedness of an options record: each present value fits the
Rust integer type of its field (`u16`, `u8`, `u64`, `u64`). -/
def Opts.wfb (o : Opts) : Bool :=
  o.block_size.all (· < 2 ^ 16) &&
  o.timeout.all (· < 2 ^ 8) &&
  o.transfer_size.all (· < 2 ^ 64) &&
  o.window_size.all (· < 2 ^ 64)

/-- Wellformedness of an in-memory packet, mirroring the Rust types:
16-bit block numbers, byte-valued payloads, null-free text fields,
range-correct options. -/
def Packet.wfb : Packet → Bool
  | .Rrq req | .Wrq req => wfText req.filename && req.opts.wfb
  | .Data block data => decide (block < 2 ^ 16) && data.all (· < 256)
  | .Ack block => decide (block < 2 ^ 16)
  | .Error e =>
    match e with
    | .Msg s => wfText s
    | _ => true
  | .OAck o => o.wfb

/-- Modelled from the spec's words (the refinement target for the
fixed-order option encoding claim): one present option is written as
`key NUL value-as-decimal-text NUL`; an absent option contributes no
bytes. -/
def specOptChunk (key : String) (v : Option Nat) : Bytes :=
  match v with
  | some n => strBytes key ++ [0] ++ natToDecBytes n ++ [0]
  | none => []

section Lemmas

theorem splitAtNul_append (s r : Bytes) (h : 0 ∉ s) :
    splitAtNul (s ++ 0 :: r) = some (s, r) := by
  induction s with
  | nil => simp [splitAtNul]
  | cons b bs ih =>
    have hb : b ≠ 0 := fun hb => h (by simp [hb])
    have hbs : 0 ∉ bs := fun hm => h (List.mem_cons_of_mem _ hm)
    simp [splitAtNul, hb, ih hbs]

theorem splitAtNul_length {l s r : Bytes} (h : splitAtNul l = some (s, r)) :
    r.length < l.length := by
  induction l generalizing s r with
  | nil => simp [splitAtNul] at h
  | cons b bs ih =>
    by_cases hb : b = 0
    · simp [splitAtNul, hb] at h
      simp [← h.2]
    · rw [splitAtNul, if_neg hb] at h
      match hsp : splitAtNul bs with
      | some (s2, r2) =>
        rw [hsp] at h
        simp only [Option.some.injEq, Prod.mk.injEq] at h
        have hlen := ih hsp
        rw [← h.2]
        simp only [List.length_cons]
        omega
      | none => rw [hsp] at h; simp at h

theorem natToDecAux_congr (f₁ : Nat) :
    ∀ f₂ n, n < f₁ → n < f₂ → natToDecAux f₁ n = natToDecAux f₂ n := by
  induction f₁ with
  | zero => intro f₂ n h1; omega
  | succ f ih =>
    intro f₂ n h1 h2
    match f₂, h2 with
    | g + 1, _ =>
      by_cases hn : n < 10
      · simp [natToDecAux, hn]
      · have hpos : 0 < n := by omega
        have hdiv : n / 10 < n := Nat.div_lt_self hpos (by omega)
        simp only [natToDecAux, hn, if_false]
        rw [ih g (n / 10) (by omega) (by omega)]

theorem natToDecBytes_eq (n : Nat) :
    natToDecBytes n =
      if n < 10 then [48 + n]
      else natToDecBytes (n / 10) ++ [48 + n % 10] := by
  by_cases hn : n < 10
  · simp [natToDecBytes, natToDecAux, hn]
  · have hpos : 0 < n := by omega
    have hdiv : n / 10 < n := Nat.div_lt_self hpos (by omega)
    rw [natToDecBytes, natToDecBytes, natToDecAux]
    simp only [hn, if_false]
    rw [natToDecAux_congr n (n / 10 + 1) (n / 10) (by omega) (by omega)]

theorem natToDecBytes_digits (n : Nat) :
    ∀ b ∈ natToDecBytes n, 48 ≤ b ∧ b ≤ 57 := by
  induction n using Nat.strong_induction_on with
  | _ n ih =>
    rw [natToDecBytes_eq]
    by_cases hn : n < 10
    · simp [hn]; omega
    · have hpos : 0 < n := by omega
      have hdiv : n / 10 < n := Nat.div_lt_self hpos (by omega)
      simp only [hn, if_false]
      intro b hb
      rcases List.mem_append.mp hb with h | h
      · exact ih (n / 10) hdiv b h
      · simp at h
        have : n % 10 < 10 := Nat.mod_lt _ (by omega)
        omega

theorem natToDecBytes_ne_nil (n : Nat) : natToDecBytes n ≠ [] := by
  rw [natToDecBytes_eq]
  by_cases hn : n < 10 <;> simp [hn]

theorem zero_not_mem_natToDecBytes (n : Nat) : 0 ∉ natToDecBytes n := by
  intro h
  have := natToDecBytes_digits n 0 h
  omega

theorem decAux_append (s t : Bytes) :
    ∀ acc, decAux (s ++ t) acc =
      match decAux s acc with
      | some a => decAux t a
      | none => none := by
  induction s with
  | nil => intro acc; simp [decAux]
  | cons b bs ih =>
    intro acc
    simp only [List.cons_append, decAux]
    match decDigit b with
    | some d => simp [ih]
    | none => simp

theorem decAux_natToDecBytes (n : Nat) :
    ∀ acc, decAux (natToDecBytes n) acc =
      some (acc * 10 ^ (natToDecBytes n).length + n) := by
  induction n using Nat.strong_induction_on with
  | _ n ih =>
    intro acc
    rw [natToDecBytes_eq]
    by_cases hn : n < 10
    · simp only [hn, if_true]
      have : decDigit (48 + n) = some n := by
        simp [decDigit]; omega
      simp [decAux, this]
    · have hpos : 0 < n := by omega
      have hdiv : n / 10 < n := Nat.div_lt_self hpos (by omega)
      simp only [hn, if_false]
      rw [decAux_append]
      rw [ih (n / 10) hdiv acc]
      have hd : decDigit (48 + n % 10) = some (n % 10) := by
        have : n % 10 < 10 := Nat.mod_lt _ (by omega)
        simp [decDigit]; omega
      simp only [decAux, hd]
      have hlen : (natToDecBytes (n / 10) ++ [48 + n % 10]).length =
          (natToDecBytes (n / 10)).length + 1 := by simp
      rw [hlen]
      congr 1
      have : (acc * 10 ^ (natToDecBytes (n / 10)).length + n / 10) * 10 + n % 10 =
          acc * (10 ^ (natToDecBytes (n / 10)).length * 10) + (n / 10 * 10 + n % 10) := by
        ring
      rw [this, Nat.div_add_mod' n 10, pow_succ]

theorem decBytesToNat_natToDecBytes (n : Nat) :
    decBytesToNat (natToDecBytes n) = some n := by
  have hne := natToDecBytes_ne_nil n
  match hb : natToDecBytes n with
  | [] => exact absurd hb hne
  | b :: bs =>
    have := decAux_natToDecBytes n 0
    rw [hb] at this
    simpa [decBytesToNat] using this

theorem parseBounded_natToDecBytes {n bound : Nat} (h : n < bound) :
    parseBounded (natToDecBytes n) bound = some n := by
  simp [parseBounded, decBytesToNat_natToDecBytes, h]

theorem parse_opts_aux_congr (f₁ : Nat) :
    ∀ f₂ (input : Bytes) acc, input.length ≤ f₁ → input.length ≤ f₂ →
      parse_opts_aux f₁ input acc = parse_opts_aux f₂ input acc := by
  induction f₁ with
  | zero =>
    intro f₂ input acc h1 _
    match input with
    | [] => cases f₂ <;> rfl
    | _ :: _ => simp at h1
  | succ f ih =>
    intro f₂ input acc h1 h2
    match input with
    | [] => cases f₂ <;> rfl
    | b :: bs =>
      match f₂, h2 with
      | g + 1, hg =>
        match hsp : splitAtNul (b :: bs) with
        | none => simp only [parse_opts_aux, hsp]
        | some (k, r1) =>
          match hsp2 : splitAtNul r1 with
          | none => simp only [parse_opts_aux, hsp, hsp2]
          | some (v, r2) =>
            have l1 := splitAtNul_length hsp
            have l2 := splitAtNul_length hsp2
            simp only [List.length_cons] at h1 hg l1
            simp only [parse_opts_aux, hsp, hsp2]
            exact ih g r2 (applyOpt k v acc) (by omega) (by omega)

theorem parse_opts_step (k v rest : Bytes) (acc : Opts)
    (hk : 0 ∉ k) (hv : 0 ∉ v) :
    parse_opts (k ++ 0 :: (v ++ 0 :: rest)) acc =
      parse_opts rest (applyOpt k v acc) := by
  have hsp1 : splitAtNul (k ++ 0 :: (v ++ 0 :: rest)) =
      some (k, v ++ 0 :: rest) := splitAtNul_append k _ hk
  have hsp2 : splitAtNul (v ++ 0 :: rest) = some (v, rest) :=
    splitAtNul_append v rest hv
  match hcons : k ++ 0 :: (v ++ 0 :: rest) with
  | [] => exact absurd hcons (by simp)
  | b :: bs =>
    have hlen : bs.length = k.length + v.length + rest.length + 1 := by
      have : (k ++ 0 :: (v ++ 0 :: rest)).length =
          k.length + v.length + rest.length + 2 := by simp; omega
      rw [hcons] at this
      simp at this
      omega
    rw [hcons] at hsp1
    unfold parse_opts
    simp only [List.length_cons, parse_opts_aux, hsp1, hsp2]
    exact parse_opts_aux_congr bs.length rest.length rest (applyOpt k v acc)
      (by omega) (by omega)

theorem parse_opts_nil (acc : Opts) : parse_opts [] acc = some acc := rfl

theorem applyOpt_blksize (v : Bytes) (o : Opts) :
    applyOpt (strBytes "blksize") v o =
      ⟨parseBounded v (2 ^ 16), o.timeout, o.transfer_size, o.window_size⟩ := by
  rw [applyOpt, if_pos rfl]

theorem applyOpt_timeout (v : Bytes) (o : Opts) :
    applyOpt (strBytes "timeout") v o =
      ⟨o.block_size, parseBounded v (2 ^ 8), o.transfer_size, o.window_size⟩ := by
  rw [applyOpt, if_neg (by decide), if_pos rfl]

theorem applyOpt_tsize (v : Bytes) (o : Opts) :
    applyOpt (strBytes "tsize") v o =
      ⟨o.block_size, o.timeout, parseBounded v (2 ^ 64), o.window_size⟩ := by
  rw [applyOpt, if_neg (by decide), if_neg (by decide), if_pos rfl]

theorem applyOpt_windowsize (v : Bytes) (o : Opts) :
    applyOpt (strBytes "windowsize") v o =
      ⟨o.block_size, o.timeout, o.transfer_size, parseBounded v (2 ^ 64)⟩ := by
  rw [applyOpt, if_neg (by decide), if_neg (by decide), if_neg (by decide),
    if_pos rfl]

theorem applyOpt_unknown (k v : Bytes) (o : Opts)
    (h1 : k ≠ strBytes "blksize") (h2 : k ≠ strBytes "timeout")
    (h3 : k ≠ strBytes "tsize") (h4 : k ≠ strBytes "windowsize") :
    applyOpt k v o = o := by
  rw [applyOpt, if_neg h1, if_neg h2, if_neg h3, if_neg h4]

theorem parse_opts_step_blksize (n : Nat) (rest : Bytes) (acc : Opts) :
    parse_opts (strBytes "blksize" ++ 0 :: (natToDecBytes n ++ 0 :: rest)) acc =
      parse_opts rest (applyOpt (strBytes "blksize") (natToDecBytes n) acc) :=
  parse_opts_step _ _ _ _ (by decide) (zero_not_mem_natToDecBytes n)

theorem parse_opts_step_timeout (n : Nat) (rest : Bytes) (acc : Opts) :
    parse_opts (strBytes "timeout" ++ 0 :: (natToDecBytes n ++ 0 :: rest)) acc =
      parse_opts rest (applyOpt (strBytes "timeout") (natToDecBytes n) acc) :=
  parse_opts_step _ _ _ _ (by decide) (zero_not_mem_natToDecBytes n)

theorem parse_opts_step_windowsize (n : Nat) (rest : Bytes) (acc : Opts) :
    parse_opts (strBytes "windowsize" ++ 0 :: (natToDecBytes n ++ 0 :: rest)) acc =
      parse_opts rest (applyOpt (strBytes "windowsize") (natToDecBytes n) acc) :=
  parse_opts_step _ _ _ _ (by decide) (zero_not_mem_natToDecBytes n)

theorem parse_opts_step_tsize (n : Nat) (rest : Bytes) (acc : Opts) :
    parse_opts (strBytes "tsize" ++ 0 :: (natToDecBytes n ++ 0 :: rest)) acc =
      parse_opts rest (applyOpt (strBytes "tsize") (natToDecBytes n) acc) :=
  parse_opts_step _ _ _ _ (by decide) (zero_not_mem_natToDecBytes n)

theorem parse_opts_encode (o : Opts) (h : o.wfb = true) :
    parse_opts o.encode Opts.default = some o := by
  obtain ⟨b₀, t₀, s₀, w₀⟩ := o
  simp only [Opts.wfb, Bool.and_eq_true] at h
  obtain ⟨⟨⟨h1, h2⟩, h3⟩, h4⟩ := h
  rcases b₀ with _ | b₀ <;> rcases t₀ with _ | t₀ <;>
    rcases s₀ with _ | s₀ <;> rcases w₀ with _ | w₀ <;>
  · simp only [Opts.encode, List.append_assoc, List.singleton_append,
      List.cons_append, List.nil_append, List.append_nil]
    simp only [parse_opts_step_blksize, parse_opts_step_timeout,
      parse_opts_step_windowsize, parse_opts_step_tsize, parse_opts_nil,
      applyOpt_blksize, applyOpt_timeout, applyOpt_windowsize, applyOpt_tsize]
    simp_all [parseBounded_natToDecBytes, Opts.default]

theorem wfText_zero {s : Bytes} (h : wfText s = true) : 0 ∉ s := by
  intro hm
  simp only [wfText, List.all_eq_true] at h
  have := h 0 hm
  simp at this

theorem mode_to_str_no_nul (m : Mode) : 0 ∉ m.to_str := by
  cases m <;> decide

theorem parseMode_to_str (m : Mode) : parseMode m.to_str = some m := by
  cases m <;> decide

theorem from_code_other {d : Nat} (hd : d = 0 ∨ 9 ≤ d) (m : Option Bytes) :
    TftpError.from_code d m =
      match m with
      | some s => TftpError.Msg s
      | none => TftpError.UnknownError := by
  rw [TftpError.from_code.eq_def]
  split_ifs <;> first | rfl | omega

theorem parseRwReq_encode (f : Bytes) (mo : Mode) (op : Opts)
    (hf : 0 ∉ f) (ho : op.wfb = true) :
    parseRwReq (f ++ 0 :: (mo.to_str ++ 0 :: op.encode)) = .ok ⟨f, mo, op⟩ := by
  have e1 : splitAtNul (f ++ 0 :: (mo.to_str ++ 0 :: op.encode)) =
      some (f, mo.to_str ++ 0 :: op.encode) := splitAtNul_append f _ hf
  have e2 : splitAtNul (mo.to_str ++ 0 :: op.encode) =
      some (mo.to_str, op.encode) :=
    splitAtNul_append _ _ (mode_to_str_no_nul mo)
  simp only [parseRwReq, e1, e2, parseMode_to_str, parse_opts_encode op ho]

theorem from_u16_eq_none {n : Nat} (h : ¬(1 ≤ n ∧ n ≤ 6)) :
    PacketType.from_u16 n = none := by
  rw [PacketType.from_u16.eq_def]
  split_ifs <;> first | rfl | omega

end Lemmas

section Claims

/-- C2: decoding any input of length less than two, or any input whose
leading 16-bit opcode is outside 1..6, fails with `InvalidPacket`.  The
decoder is a total function of the input byte list, so the model has no
panic or out-of-bounds access. -/
theorem decode_short_or_bad_opcode (data : Bytes) :
    (data.length < 2 → Packet.decode data = .error .InvalidPacket) ∧
    (∀ b0 b1 rest, data = b0 :: b1 :: rest →
      ¬(1 ≤ b0 * 256 + b1 ∧ b0 * 256 + b1 ≤ 6) →
      Packet.decode data = .error .InvalidPacket) := by
  constructor
  · intro h
    match data with
    | [] => rfl
    | [b] => rfl
    | b0 :: b1 :: rest => simp at h; omega
  · rintro b0 b1 rest rfl hop
    show parse_packet _ = _
    simp only [parse_packet, from_u16_eq_none hop]

/-- C2 (witness): a one-byte input and an input with opcode 7 both
decode to `InvalidPacket`. -/
theorem decode_short_or_bad_opcode_witness :
    Packet.decode [9] = .error .InvalidPacket ∧
    Packet.decode [0, 7] = .error .InvalidPacket :=
  ⟨(decode_short_or_bad_opcode [9]).1 (by decide),
   (decode_short_or_bad_opcode [0, 7]).2 0 7 [] rfl (by decide)⟩

/-- C3: for each of the eight named error variants (codes 1..8),
`from_code` applied to the variant's own code and message text returns
the variant itself. -/
theorem from_code_code_msg_inverse :
    TftpError.from_code TftpError.FileNotFound.code
      (some TftpError.FileNotFound.msg) = TftpError.FileNotFound ∧
    TftpError.from_code TftpError.PermissionDenied.code
      (some TftpError.PermissionDenied.msg) = TftpError.PermissionDenied ∧
    TftpError.from_code TftpError.DiskFull.code
      (some TftpError.DiskFull.msg) = TftpError.DiskFull ∧
    TftpError.from_code TftpError.IllegalOperation.code
      (some TftpError.IllegalOperation.msg) = TftpError.IllegalOperation ∧
    TftpError.from_code TftpError.UnknownTransferId.code
      (some TftpError.UnknownTransferId.msg) = TftpError.UnknownTransferId ∧
    TftpError.from_code TftpError.FileAlreadyExists.code
      (some TftpError.FileAlreadyExists.msg) = TftpError.FileAlreadyExists ∧
    TftpError.from_code TftpError.NoSuchUser.code
      (some TftpError.NoSuchUser.msg) = TftpError.NoSuchUser ∧
    TftpError.from_code TftpError.OptionsNegotiationFailed.code
      (some TftpError.OptionsNegotiationFailed.msg) =
      TftpError.OptionsNegotiationFailed := by
  decide

/-- C4: codes 1..8 map to their fixed named variant (the `c`-th entry
of the list below) with the optional text discarded; code 0 and every
code above 8 yield `Msg text` when text is present and `UnknownError`
when it is absent — in particular at code 9 with text `"custom"`. -/
theorem from_code_classification (c d : Nat) (t t' : Option Bytes) (s : Bytes)
    (hc1 : 1 ≤ c) (hc8 : c ≤ 8) (hd : d = 0 ∨ 9 ≤ d) :
    [TftpError.FileNotFound, TftpError.PermissionDenied, TftpError.DiskFull,
      TftpError.IllegalOperation, TftpError.UnknownTransferId,
      TftpError.FileAlreadyExists, TftpError.NoSuchUser,
      TftpError.OptionsNegotiationFailed].get? (c - 1) =
      some (TftpError.from_code c t) ∧
    TftpError.from_code c t = TftpError.from_code c t' ∧
    TftpError.from_code d (some s) = TftpError.Msg s ∧
    TftpError.from_code d none = TftpError.UnknownError ∧
    TftpError.from_code 9 (some (strBytes "custom")) =
      TftpError.Msg (strBytes "custom") ∧
    TftpError.from_code 9 none = TftpError.UnknownError := by
  refine ⟨?_, ?_, ?_, ?_, by decide, by decide⟩
  · interval_cases c <;> simp [TftpError.from_code]
  · interval_cases c <;> simp [TftpError.from_code]
  · rw [from_code_other hd]
  · rw [from_code_other hd]

/-- C4 (witness): instantiation at `c = 3`, `d = 9`. -/
theorem from_code_classification_witness :
    ((1 : Nat) ≤ 3 ∧ (3 : Nat) ≤ 8 ∧ ((9 : Nat) = 0 ∨ 9 ≤ 9)) ∧
    ([TftpError.FileNotFound, TftpError.PermissionDenied, TftpError.DiskFull,
      TftpError.IllegalOperation, TftpError.UnknownTransferId,
      TftpError.FileAlreadyExists, TftpError.NoSuchUser,
      TftpError.OptionsNegotiationFailed].get? (3 - 1) =
      some (TftpError.from_code 3 none) ∧
    TftpError.from_code 3 none = TftpError.from_code 3 (some [65]) ∧
    TftpError.from_code 9 (some [65]) = TftpError.Msg [65] ∧
    TftpError.from_code 9 none = TftpError.UnknownError ∧
    TftpError.from_code 9 (some (strBytes "custom")) =
      TftpError.Msg (strBytes "custom") ∧
    TftpError.from_code 9 none = TftpError.UnknownError) :=
  ⟨⟨by decide, by decide, by decide⟩,
   from_code_classification 3 9 none (some [65]) [65]
     (by decide) (by decide) (by decide)⟩

/-- C6: `Opts::encode` writes the present options in the fixed order
block size, timeout, window size, transfer size, each present option as
`key NUL decimal-value NUL` (the spec-side formulation `specOptChunk`),
and absent options contribute no bytes. -/
theorem opts_encode_fixed_order (o : Opts) :
    o.encode =
      specOptChunk "blksize" o.block_size ++
      specOptChunk "timeout" o.timeout ++
      specOptChunk "windowsize" o.window_size ++
      specOptChunk "tsize" o.transfer_size := by
  obtain ⟨b₀, t₀, s₀, w₀⟩ := o
  rcases b₀ with _ | b₀ <;> rcases t₀ with _ | t₀ <;>
    rcases s₀ with _ | s₀ <;> rcases w₀ with _ | w₀ <;> rfl

/-- C8: the conversion from a local I/O failure is total (a Lean
function) and maps not-found to `FileNotFound`, permission-denied to
`PermissionDenied`, write-zero (storage full) to `DiskFull`,
already-exists to `FileAlreadyExists`; any other kind maps to
`Msg "IO error: <code>"` when a raw OS code is available and to
`UnknownError` otherwise. -/
theorem io_error_to_tftp_error (e : IoError) (rc : Int) :
    (e.kind = .NotFound → tftpErrorFromIo e = .FileNotFound) ∧
    (e.kind = .PermissionDenied → tftpErrorFromIo e = .PermissionDenied) ∧
    (e.kind = .WriteZero → tftpErrorFromIo e = .DiskFull) ∧
    (e.kind = .AlreadyExists → tftpErrorFromIo e = .FileAlreadyExists) ∧
    (e.kind = .Other → e.raw_os_error = some rc →
      tftpErrorFromIo e = .Msg (strBytes "IO error: " ++ intToDecBytes rc)) ∧
    (e.kind = .Other → e.raw_os_error = none →
      tftpErrorFromIo e = .UnknownError) := by
  obtain ⟨k, r⟩ := e
  refine ⟨?_, ?_, ?_, ?_, ?_, ?_⟩
  · intro hk; simp only at hk; simp [tftpErrorFromIo, hk]
  · intro hk; simp only at hk; simp [tftpErrorFromIo, hk]
  · intro hk; simp only at hk; simp [tftpErrorFromIo, hk]
  · intro hk; simp only at hk; simp [tftpErrorFromIo, hk]
  · intro hk hr; simp only at hk hr; simp [tftpErrorFromIo, hk, hr]
  · intro hk hr; simp only at hk hr; simp [tftpErrorFromIo, hk, hr]

/-- C8 (witness): instantiations covering a special kind, the
raw-code path and the no-code path. -/
theorem io_error_to_tftp_error_witness :
    tftpErrorFromIo ⟨.NotFound, none⟩ = .FileNotFound ∧
    tftpErrorFromIo ⟨.Other, some 28⟩ =
      .Msg (strBytes "IO error: " ++ intToDecBytes 28) ∧
    tftpErrorFromIo ⟨.Other, none⟩ = .UnknownError :=
  ⟨(io_error_to_tftp_error ⟨.NotFound, none⟩ 0).1 rfl,
   (io_error_to_tftp_error ⟨.Other, some 28⟩ 28).2.2.2.2.1 rfl rfl,
   (io_error_to_tftp_error ⟨.Other, none⟩ 0).2.2.2.2.2 rfl rfl⟩

/-- C9: writing the Data header into an empty buffer and appending the
payload produces exactly the bytes of encoding the whole Data packet;
in particular `Data(5, [0xAA, 0xBB])` encodes to `00 03 00 05 AA BB`. -/
theorem encode_data_head_agrees (b : Nat) (p : Bytes) :
    Packet.encode_data_head b [] ++ p = (Packet.Data b p).encode [] ∧
    (Packet.Data 5 [0xAA, 0xBB]).encode [] =
      [0x00, 0x03, 0x00, 0x05, 0xAA, 0xBB] := by
  constructor
  · simp [Packet.encode_data_head, Packet.encode, List.append_assoc]
  · decide

/-- C10: `Error(UnknownError)` and `Error(Msg "Unknown error")` encode
to the same bytes — opcode 5, code 0, the text `Unknown error`, a null
terminator — and decoding that encoding yields `Msg "Unknown error"`
(the text field is non-empty), never `UnknownError` itself. -/
theorem unknownError_encoding_lossy :
    (Packet.Error TftpError.UnknownError).to_bytes =
      (Packet.Error (TftpError.Msg (strBytes "Unknown error"))).to_bytes ∧
    (Packet.Error TftpError.UnknownError).to_bytes =
      put_u16 5 ++ put_u16 0 ++ strBytes "Unknown error" ++ [0] ∧
    Packet.decode (Packet.Error TftpError.UnknownError).to_bytes =
      .ok (.Error (.Msg (strBytes "Unknown error"))) := by
  decide

/-- C5: decoding a read or write request whose mode text is not,
case-insensitively, one of `netascii`, `octet`, `mail` fails with
`InvalidMode`; decoding a read request with the mixed-case mode text
`Octet` succeeds and yields the `Octet` (binary) mode. -/
theorem decode_invalid_mode (f m rest : Bytes)
    (hf : 0 ∉ f) (hm0 : 0 ∉ m)
    (h1 : m.map lowerByte ≠ strBytes "netascii")
    (h2 : m.map lowerByte ≠ strBytes "octet")
    (h3 : m.map lowerByte ≠ strBytes "mail") :
    Packet.decode (0 :: 1 :: (f ++ 0 :: (m ++ 0 :: rest))) =
      .error .InvalidMode ∧
    Packet.decode (0 :: 2 :: (f ++ 0 :: (m ++ 0 :: rest))) =
      .error .InvalidMode ∧
    Packet.decode (0 :: 1 :: (strBytes "a" ++ 0 :: (strBytes "Octet" ++ 0 :: []))) =
      .ok (.Rrq ⟨strBytes "a", .Octet, Opts.default⟩) := by
  have hmode : parseMode m = none := by
    unfold parseMode
    rw [if_neg h1, if_neg h2, if_neg h3]
  have e1 : splitAtNul (f ++ 0 :: (m ++ 0 :: rest)) =
      some (f, m ++ 0 :: rest) := splitAtNul_append f _ hf
  have e2 : splitAtNul (m ++ 0 :: rest) = some (m, rest) :=
    splitAtNul_append m rest hm0
  have hreq : parseRwReq (f ++ 0 :: (m ++ 0 :: rest)) = .error .InvalidMode := by
    simp only [parseRwReq, e1, e2, hmode]
  refine ⟨?_, ?_, by decide⟩
  · show parse_packet _ = _
    simp [parse_packet, PacketType.from_u16, hreq, Except.map]
  · show parse_packet _ = _
    simp [parse_packet, PacketType.from_u16, hreq, Except.map]

/-- C5 (witness): mode text `wrong` is rejected with `InvalidMode` on
both request opcodes, and the mixed-case concrete decode succeeds. -/
theorem decode_invalid_mode_witness :
    Packet.decode (0 :: 1 :: (strBytes "a" ++ 0 :: (strBytes "wrong" ++ 0 :: []))) =
      .error .InvalidMode ∧
    Packet.decode (0 :: 2 :: (strBytes "a" ++ 0 :: (strBytes "wrong" ++ 0 :: []))) =
      .error .InvalidMode ∧
    Packet.decode (0 :: 1 :: (strBytes "a" ++ 0 :: (strBytes "Octet" ++ 0 :: []))) =
      .ok (.Rrq ⟨strBytes "a", .Octet, Opts.default⟩) :=
  decode_invalid_mode (strBytes "a") (strBytes "wrong") []
    (by decide) (by decide) (by decide) (by decide) (by decide)

/-- C7: while decoding an option block, an unknown key (with its value)
is skipped without error and parsing continues; a block-size or timeout
value that does not parse as the expected integer type (an empty value
included) leaves that option absent instead of failing; concretely, a
full OAck datagram carrying an empty `blksize` value, two unknown keys
and a good `timeout` decodes successfully with only the timeout set. -/
theorem opts_lenient_parsing (k v w rest : Bytes) (acc : Opts)
    (hk0 : 0 ∉ k) (hv0 : 0 ∉ v) (hw0 : 0 ∉ w)
    (hk1 : k ≠ strBytes "blksize") (hk2 : k ≠ strBytes "timeout")
    (hk3 : k ≠ strBytes "tsize") (hk4 : k ≠ strBytes "windowsize")
    (hv : parseBounded v (2 ^ 16) = none) (hw : parseBounded w (2 ^ 8) = none) :
    parse_opts (k ++ 0 :: (v ++ 0 :: rest)) acc = parse_opts rest acc ∧
    parse_opts (strBytes "blksize" ++ 0 :: (v ++ 0 :: rest)) acc =
      parse_opts rest ⟨none, acc.timeout, acc.transfer_size, acc.window_size⟩ ∧
    parse_opts (strBytes "timeout" ++ 0 :: (w ++ 0 :: rest)) acc =
      parse_opts rest ⟨acc.block_size, none, acc.transfer_size, acc.window_size⟩ ∧
    Packet.decode (0 :: 6 :: (strBytes "blksize" ++ 0 :: 0 ::
        (strBytes "foo" ++ 0 :: (strBytes "bar" ++ 0 ::
        (strBytes "timeout" ++ 0 :: (strBytes "3" ++ 0 :: [])))))) =
      .ok (.OAck ⟨none, some 3, none, none⟩) := by
  refine ⟨?_, ?_, ?_, by decide⟩
  · rw [parse_opts_step k v rest acc hk0 hv0,
      applyOpt_unknown k v acc hk1 hk2 hk3 hk4]
  · rw [parse_opts_step _ v rest acc (by decide) hv0, applyOpt_blksize, hv]
  · rw [parse_opts_step _ w rest acc (by decide) hw0, applyOpt_timeout, hw]

/-- C7 (witness): unknown key `foo`, non-numeric block-size value
`abc`, empty timeout value. -/
theorem opts_lenient_parsing_witness :
    parse_opts (strBytes "foo" ++ 0 :: (strBytes "abc" ++ 0 :: [])) Opts.default =
      parse_opts [] Opts.default ∧
    parse_opts (strBytes "blksize" ++ 0 :: (strBytes "abc" ++ 0 :: [])) Opts.default =
      parse_opts [] ⟨none, none, none, none⟩ ∧
    parse_opts (strBytes "timeout" ++ 0 :: ([] ++ 0 :: [])) Opts.default =
      parse_opts [] ⟨none, none, none, none⟩ ∧
    Packet.decode (0 :: 6 :: (strBytes "blksize" ++ 0 :: 0 ::
        (strBytes "foo" ++ 0 :: (strBytes "bar" ++ 0 ::
        (strBytes "timeout" ++ 0 :: (strBytes "3" ++ 0 :: [])))))) =
      .ok (.OAck ⟨none, some 3, none, none⟩) :=
  opts_lenient_parsing (strBytes "foo") (strBytes "abc") [] [] Opts.default
    (by decide) (by decide) (by decide) (by decide) (by decide) (by decide)
    (by decide) (by decide) (by decide)

/-- C1 (counterexample): the claim "decode(encode(m)) = m for every
valid Message m, for every variant" fails at the valid value
`Error(UnknownError)`: its encoding (code 0 with the canonical text
`Unknown error`) decodes to `Error(Msg "Unknown error")`. -/
theorem decode_encode_unknownError_counterexample :
    (Packet.Error TftpError.UnknownError).wfb = true ∧
    Packet.decode (Packet.Error TftpError.UnknownError).to_bytes ≠
      Except.ok (Packet.Error TftpError.UnknownError) := by
  decide

/-- C1 (amended): for every wellformed Message value (null-free text
fields, byte-valued payload, range-correct options and block numbers)
other than the two code-0 error details the wire format cannot
represent distinctly (`Error(UnknownError)` and `Error(Msg "")`),
decoding the encoding yields a value equal to the original, for every
variant Rrq, Wrq, Data, Ack, Error, OAck. -/
theorem decode_encode_roundtrip (m : Packet) (hwf : m.wfb = true)
    (h1 : m ≠ .Error .UnknownError) (h2 : m ≠ .Error (.Msg [])) :
    Packet.decode m.to_bytes = Except.ok m := by
  cases m with
  | Rrq req =>
    obtain ⟨f, mo, op⟩ := req
    simp only [Packet.wfb, Bool.and_eq_true] at hwf
    have hf : 0 ∉ f := wfText_zero hwf.1
    have hb : (Packet.Rrq ⟨f, mo, op⟩).to_bytes =
        0 :: 1 :: (f ++ 0 :: (mo.to_str ++ 0 :: op.encode)) := by
      simp [Packet.to_bytes, Packet.encode, put_u16, PacketType.toU16]
    show parse_packet _ = _
    rw [hb]
    simp [parse_packet, PacketType.from_u16,
      parseRwReq_encode f mo op hf hwf.2, Except.map]
  | Wrq req =>
    obtain ⟨f, mo, op⟩ := req
    simp only [Packet.wfb, Bool.and_eq_true] at hwf
    have hf : 0 ∉ f := wfText_zero hwf.1
    have hb : (Packet.Wrq ⟨f, mo, op⟩).to_bytes =
        0 :: 2 :: (f ++ 0 :: (mo.to_str ++ 0 :: op.encode)) := by
      simp [Packet.to_bytes, Packet.encode, put_u16, PacketType.toU16]
    show parse_packet _ = _
    rw [hb]
    simp [parse_packet, PacketType.from_u16,
      parseRwReq_encode f mo op hf hwf.2, Except.map]
  | Data block data =>
    simp only [Packet.wfb, Bool.and_eq_true, decide_eq_true_eq] at hwf
    have hb : (Packet.Data block data).to_bytes =
        0 :: 3 :: (block / 256 % 256 :: block % 256 :: data) := by
      simp [Packet.to_bytes, Packet.encode, put_u16, PacketType.toU16]
    show parse_packet _ = _
    rw [hb]
    simp only [parse_packet, PacketType.from_u16]
    norm_num
    have : block / 256 % 256 * 256 + block % 256 = block := by
      have := hwf.1
      omega
    rw [this]
  | Ack block =>
    simp only [Packet.wfb, decide_eq_true_eq] at hwf
    have hb : (Packet.Ack block).to_bytes =
        0 :: 4 :: (block / 256 % 256 :: block % 256 :: []) := by
      simp [Packet.to_bytes, Packet.encode, put_u16, PacketType.toU16]
    show parse_packet _ = _
    rw [hb]
    simp only [parse_packet, PacketType.from_u16]
    norm_num
    have : block / 256 % 256 * 256 + block % 256 = block := by omega
    rw [this]
  | Error e =>
    cases e with
    | Msg s =>
      simp only [Packet.wfb] at hwf
      have hs0 : 0 ∉ s := wfText_zero hwf
      have hs : s ≠ [] := by
        intro h
        exact h2 (by rw [h])
      have hb : (Packet.Error (.Msg s)).to_bytes =
          0 :: 5 :: 0 :: 0 :: (s ++ 0 :: []) := by
        simp [Packet.to_bytes, Packet.encode, put_u16, PacketType.toU16,
          TftpError.code, TftpError.msg]
      show parse_packet _ = _
      rw [hb]
      simp only [parse_packet, PacketType.from_u16]
      norm_num
      rw [splitAtNul_append s [] hs0]
      simp only [if_neg hs]
      rw [from_code_other (Or.inl rfl)]
    | UnknownError => exact absurd rfl h1
    | FileNotFound => decide
    | PermissionDenied => decide
    | DiskFull => decide
    | IllegalOperation => decide
    | UnknownTransferId => decide
    | FileAlreadyExists => decide
    | NoSuchUser => decide
    | OptionsNegotiationFailed => decide
  | OAck op =>
    simp only [Packet.wfb] at hwf
    have hb : (Packet.OAck op).to_bytes = 0 :: 6 :: op.encode := by
      simp [Packet.to_bytes, Packet.encode, put_u16, PacketType.toU16]
    show parse_packet _ = _
    rw [hb]
    simp [parse_packet, PacketType.from_u16, parse_opts_encode op hwf]

/-- C1 (witness): the round trip at a concrete read request with a
filename, binary mode and a block-size option. -/
theorem decode_encode_roundtrip_witness :
    (Packet.Rrq ⟨strBytes "a.txt", Mode.Octet,
      ⟨some 1024, none, none, none⟩⟩).wfb = true ∧
    Packet.decode (Packet.Rrq ⟨strBytes "a.txt", Mode.Octet,
      ⟨some 1024, none, none, none⟩⟩).to_bytes =
      Except.ok (Packet.Rrq ⟨strBytes "a.txt", Mode.Octet,
        ⟨some 1024, none, none, none⟩⟩) :=
  ⟨by decide,
   decode_encode_roundtrip _ (by decide) (by decide) (by decide)⟩

end Claims
